import Mathlib

/-!
Verification development for the rust-core concurrency toolkit
(src/core/concurrent.rs, src/core/thread.rs).

The monitor cells serialize every container access under one mutex, so each
completed push or pop is modelled as an atomic transition on the protected
container state; an operation whose wait-loop guard holds (and which therefore
blocks instead of completing) is modelled as returning none.
-/

namespace RustCore

/-- Modelled from the spec: the external FIFO deque container (its source file
is not under src/). Per the spec, push appends at the tail, pop removes from
the head, len is the number of stored elements. -/
structure Deque (α : Type) where
  items : List α
deriving DecidableEq

def Deque.empty {α : Type} : Deque α := ⟨[]⟩

def Deque.push_back {α : Type} (d : Deque α) (x : α) : Deque α :=
  ⟨d.items ++ [x]⟩

def Deque.pop_front {α : Type} (d : Deque α) : Option α × Deque α :=
  match d with
  | ⟨[]⟩ => (none, ⟨[]⟩)
  | ⟨x :: xs⟩ => (some x, ⟨xs⟩)

def Deque.len {α : Type} (d : Deque α) : Nat := d.items.length

/-- Modelled from the spec: the external binary max-heap priority container
(its source file is not under src/). Per the spec, push inserts and pop removes
the greatest element under the total order supplied by the element type. The
heap is modelled as a list kept sorted in non-increasing order, carrying its
ordering invariant. -/
structure PriorityQueue (α : Type) [LinearOrder α] where
  items : List α
  sorted : items.Sorted (· ≥ ·)

def PriorityQueue.empty {α : Type} [LinearOrder α] : PriorityQueue α :=
  ⟨[], List.sorted_nil⟩

def PriorityQueue.push {α : Type} [LinearOrder α] (q : PriorityQueue α) (x : α) :
    PriorityQueue α :=
  ⟨q.items.orderedInsert (· ≥ ·) x, List.Sorted.orderedInsert x q.items q.sorted⟩

def PriorityQueue.pop {α : Type} [LinearOrder α] (q : PriorityQueue α) :
    Option α × PriorityQueue α :=
  match q with
  | ⟨[], _⟩ => (none, ⟨[], List.sorted_nil⟩)
  | ⟨x :: xs, h⟩ => (some x, ⟨xs, h.of_cons⟩)

def PriorityQueue.len {α : Type} [LinearOrder α] (q : PriorityQueue α) : Nat :=
  q.items.length

/-- The GenericQueue trait of src/core/concurrent.rs: the uniform push, pop,
len capability over a sequential container, as a record of operations. -/
structure GenericQueue (C : Type) (α : Type) where
  generic_push : C → α → C
  generic_pop : C → Option α × C
  generic_len : C → Nat

/-- impl GenericQueue for Deque: push_back, pop_front, len. -/
def dequeGQ (α : Type) : GenericQueue (Deque α) α :=
  ⟨Deque.push_back, Deque.pop_front, Deque.len⟩

/-- impl GenericQueue for PriorityQueue: push, pop, len. -/
def priorityGQ (α : Type) [LinearOrder α] : GenericQueue (PriorityQueue α) α :=
  ⟨PriorityQueue.push, PriorityQueue.pop, PriorityQueue.len⟩

/-- QueuePtr.push: lock, generic_push, unlock, signal. The state effect on the
protected container is the generic_push. -/
def QueuePtr.push {C α : Type} (gq : GenericQueue C α) (c : C) (x : α) : C :=
  gq.generic_push c x

/-- QueuePtr.pop: lock, wait while generic_len = 0, then generic_pop and unwrap
with get. A pop that finds the queue empty blocks (none); a generic_pop that
returned none would hit the unwrap failure branch (also modelled none, and
proved unreachable for both container instances). -/
def QueuePtr.pop {C α : Type} (gq : GenericQueue C α) (c : C) : Option (α × C) :=
  if gq.generic_len c = 0 then none
  else
    match gq.generic_pop c with
    | (some a, c2) => some (a, c2)
    | (none, _) => none

/-- A serialized sequence of completed pushes on one unbounded monitor cell. -/
def QueuePtr.pushAll {C α : Type} (gq : GenericQueue C α) (c : C) (xs : List α) : C :=
  xs.foldl gq.generic_push c

/-- A serialized sequence of n completed pops on one unbounded monitor cell,
collecting the delivered values in order. -/
def QueuePtr.popN {C α : Type} (gq : GenericQueue C α) : Nat → C → Option (List α × C)
  | 0, c => some ([], c)
  | n + 1, c =>
    match QueuePtr.pop gq c with
    | none => none
    | some (a, c2) =>
      match QueuePtr.popN gq n c2 with
      | none => none
      | some (l, c3) => some (a :: l, c3)

/-- The BoundedQueueBox of src/core/concurrent.rs: the protected container and
the capacity field maximum. -/
structure BoundedQueueBox (C : Type) where
  deque : C
  maximum : Nat
deriving DecidableEq

/-- BoundedQueuePtr.new: stores the container and the maximum, with no
validation of maximum. -/
def BoundedQueuePtr.new {C : Type} (maximum : Nat) (queue : C) : BoundedQueueBox C :=
  ⟨queue, maximum⟩

/-- BoundedQueuePtr.push: lock, wait while generic_len = maximum, then
generic_push, unlock, signal not_empty. Completion requires the guard
generic_len = maximum to be false; otherwise the push blocks (none). -/
def BoundedQueuePtr.push {C α : Type} (gq : GenericQueue C α) (b : BoundedQueueBox C)
    (x : α) : Option (BoundedQueueBox C) :=
  if gq.generic_len b.deque = b.maximum then none
  else some ⟨gq.generic_push b.deque x, b.maximum⟩

/-- BoundedQueuePtr.pop: lock, wait while generic_len = 0, then generic_pop and
unwrap, unlock, signal not_full. Blocking and the unwrap failure branch are
modelled as in QueuePtr.pop. -/
def BoundedQueuePtr.pop {C α : Type} (gq : GenericQueue C α) (b : BoundedQueueBox C) :
    Option (α × BoundedQueueBox C) :=
  if gq.generic_len b.deque = 0 then none
  else
    match gq.generic_pop b.deque with
    | (some a, d) => some (a, ⟨d, b.maximum⟩)
    | (none, _) => none

/-- A serialized sequence of completed pushes on one bounded monitor cell. -/
def BoundedQueuePtr.pushAll {C α : Type} (gq : GenericQueue C α) :
    BoundedQueueBox C → List α → Option (BoundedQueueBox C)
  | b, [] => some b
  | b, x :: xs =>
    match BoundedQueuePtr.push gq b x with
    | none => none
    | some b2 => BoundedQueuePtr.pushAll gq b2 xs

/-- A serialized sequence of n completed pops on one bounded monitor cell. -/
def BoundedQueuePtr.popN {C α : Type} (gq : GenericQueue C α) :
    Nat → BoundedQueueBox C → Option (List α × BoundedQueueBox C)
  | 0, b => some ([], b)
  | n + 1, b =>
    match BoundedQueuePtr.pop gq b with
    | none => none
    | some (a, b2) =>
      match BoundedQueuePtr.popN gq n b2 with
      | none => none
      | some (l, b3) => some (a :: l, b3)

/-- The Queue facade: QueuePtr over a Deque. new gives an empty deque. -/
def Queue.new (α : Type) : Deque α := Deque.empty

/-- The BlockingPriorityQueue facade: QueuePtr over a PriorityQueue. -/
def BlockingPriorityQueue.new (α : Type) [LinearOrder α] : PriorityQueue α :=
  PriorityQueue.empty

/-- The BoundedQueue facade: BoundedQueuePtr over a Deque, holding at most
maximum elements. -/
def BoundedQueue.new (α : Type) (maximum : Nat) : BoundedQueueBox (Deque α) :=
  BoundedQueuePtr.new maximum Deque.empty

/-- The BoundedPriorityQueue facade: BoundedQueuePtr over a PriorityQueue. -/
def BoundedPriorityQueue.new (α : Type) [LinearOrder α] (maximum : Nat) :
    BoundedQueueBox (PriorityQueue α) :=
  BoundedQueuePtr.new maximum PriorityQueue.empty

/-! Container-level lemmas -/

theorem deque_pushAll (α : Type) (l xs : List α) :
    QueuePtr.pushAll (dequeGQ α) ⟨l⟩ xs = ⟨l ++ xs⟩ := by
  induction xs generalizing l with
  | nil => simp [QueuePtr.pushAll]
  | cons x xs ih =>
    have hstep : QueuePtr.pushAll (dequeGQ α) ⟨l⟩ (x :: xs)
        = QueuePtr.pushAll (dequeGQ α) ⟨l ++ [x]⟩ xs := rfl
    rw [hstep, ih (l ++ [x])]
    simp

theorem deque_popN (α : Type) (n : Nat) (l : List α) (h : n ≤ l.length) :
    QueuePtr.popN (dequeGQ α) n ⟨l⟩ = some (l.take n, ⟨l.drop n⟩) := by
  induction n generalizing l with
  | zero => simp [QueuePtr.popN]
  | succ n ih =>
    match l with
    | [] => simp at h
    | x :: xs =>
      have hx : n ≤ xs.length := Nat.le_of_succ_le_succ h
      have hpop : QueuePtr.pop (dequeGQ α) ⟨x :: xs⟩ = some (x, ⟨xs⟩) := rfl
      simp only [QueuePtr.popN, hpop]
      rw [ih xs hx]
      simp

theorem bounded_pushAll (α : Type) (M : Nat) (l xs : List α)
    (h : l.length + xs.length ≤ M) :
    BoundedQueuePtr.pushAll (dequeGQ α) ⟨⟨l⟩, M⟩ xs = some ⟨⟨l ++ xs⟩, M⟩ := by
  induction xs generalizing l with
  | nil => simp [BoundedQueuePtr.pushAll]
  | cons x xs ih =>
    have hlt : l.length < M := by
      simp only [List.length_cons] at h
      omega
    have hpush : BoundedQueuePtr.push (dequeGQ α) ⟨⟨l⟩, M⟩ x = some ⟨⟨l ++ [x]⟩, M⟩ := by
      have hne : (dequeGQ α).generic_len (⟨⟨l⟩, M⟩ : BoundedQueueBox (Deque α)).deque
          ≠ (⟨⟨l⟩, M⟩ : BoundedQueueBox (Deque α)).maximum := Nat.ne_of_lt hlt
      simp only [BoundedQueuePtr.push, if_neg hne]
      rfl
    have hlen2 : (l ++ [x]).length + xs.length ≤ M := by
      simp only [List.length_append, List.length_cons, List.length_nil] at h ⊢
      omega
    simp only [BoundedQueuePtr.pushAll, hpush]
    rw [ih (l ++ [x]) hlen2]
    simp

theorem bounded_popN (α : Type) (M n : Nat) (l : List α) (h : n ≤ l.length) :
    BoundedQueuePtr.popN (dequeGQ α) n ⟨⟨l⟩, M⟩ = some (l.take n, ⟨⟨l.drop n⟩, M⟩) := by
  induction n generalizing l with
  | zero => simp [BoundedQueuePtr.popN]
  | succ n ih =>
    match l with
    | [] => simp at h
    | x :: xs =>
      have hx : n ≤ xs.length := Nat.le_of_succ_le_succ h
      have hpop : BoundedQueuePtr.pop (dequeGQ α) ⟨⟨x :: xs⟩, M⟩ = some (x, ⟨⟨xs⟩, M⟩) := rfl
      simp only [BoundedQueuePtr.popN, hpop]
      rw [ih xs hx]
      simp

theorem pq_pushAll_perm (α : Type) [LinearOrder α] (q : PriorityQueue α) (xs : List α) :
    (QueuePtr.pushAll (priorityGQ α) q xs).items.Perm (xs ++ q.items) := by
  induction xs generalizing q with
  | nil => simp [QueuePtr.pushAll]
  | cons x xs ih =>
    have h1 := ih ((priorityGQ α).generic_push q x)
    have h2 : ((priorityGQ α).generic_push q x).items.Perm (x :: q.items) :=
      List.perm_orderedInsert _ x q.items
    have hstep : QueuePtr.pushAll (priorityGQ α) q (x :: xs)
        = QueuePtr.pushAll (priorityGQ α) ((priorityGQ α).generic_push q x) xs := rfl
    rw [hstep]
    refine h1.trans ?_
    refine (List.Perm.append_left xs h2).trans ?_
    exact List.perm_middle

theorem pq_popN_all (α : Type) [LinearOrder α] (l : List α) (h : l.Sorted (· ≥ ·)) :
    QueuePtr.popN (priorityGQ α) l.length ⟨l, h⟩
      = some (l, ⟨[], List.sorted_nil⟩) := by
  induction l with
  | nil => simp [QueuePtr.popN]
  | cons x xs ih =>
    have hpop : QueuePtr.pop (priorityGQ α) ⟨x :: xs, h⟩ = some (x, ⟨xs, h.of_cons⟩) := rfl
    have hlen : (x :: xs).length = xs.length + 1 := rfl
    rw [hlen]
    simp only [QueuePtr.popN, hpop]
    rw [ih h.of_cons]

theorem deque_push_len (α : Type) (d : Deque α) (x : α) :
    ((dequeGQ α).generic_push d x).items.length = d.items.length + 1 := by
  show (Deque.push_back d x).items.length = d.items.length + 1
  simp [Deque.push_back]

theorem pq_push_len (α : Type) [LinearOrder α] (q : PriorityQueue α) (x : α) :
    ((priorityGQ α).generic_push q x).items.length = q.items.length + 1 := by
  show (PriorityQueue.push q x).items.length = q.items.length + 1
  simp [PriorityQueue.push, List.orderedInsert_length]

theorem pq_bounded_pushAll (α : Type) [LinearOrder α] (M : Nat) (q : PriorityQueue α)
    (xs : List α) (h : q.items.length + xs.length ≤ M) :
    BoundedQueuePtr.pushAll (priorityGQ α) ⟨q, M⟩ xs
      = some ⟨QueuePtr.pushAll (priorityGQ α) q xs, M⟩ := by
  induction xs generalizing q with
  | nil => simp [BoundedQueuePtr.pushAll, QueuePtr.pushAll]
  | cons x xs ih =>
    have hlt : q.items.length < M := by
      simp only [List.length_cons] at h
      omega
    have hpush : BoundedQueuePtr.push (priorityGQ α) ⟨q, M⟩ x
        = some ⟨(priorityGQ α).generic_push q x, M⟩ := by
      have hne : (priorityGQ α).generic_len
            (⟨q, M⟩ : BoundedQueueBox (PriorityQueue α)).deque
          ≠ (⟨q, M⟩ : BoundedQueueBox (PriorityQueue α)).maximum := Nat.ne_of_lt hlt
      simp only [BoundedQueuePtr.push, if_neg hne]
    have hlen2 : ((priorityGQ α).generic_push q x).items.length + xs.length ≤ M := by
      rw [pq_push_len]
      simp only [List.length_cons] at h
      omega
    simp only [BoundedQueuePtr.pushAll, hpush]
    rw [ih ((priorityGQ α).generic_push q x) hlen2]
    rfl

theorem pq_bounded_popN (α : Type) [LinearOrder α] (M : Nat) (l : List α)
    (h : l.Sorted (· ≥ ·)) :
    BoundedQueuePtr.popN (priorityGQ α) l.length ⟨⟨l, h⟩, M⟩
      = some (l, ⟨⟨[], List.sorted_nil⟩, M⟩) := by
  induction l with
  | nil => simp [BoundedQueuePtr.popN]
  | cons x xs ih =>
    have hpop : BoundedQueuePtr.pop (priorityGQ α) ⟨⟨x :: xs, h⟩, M⟩
        = some (x, ⟨⟨xs, h.of_cons⟩, M⟩) := rfl
    have hlen : (x :: xs).length = xs.length + 1 := rfl
    rw [hlen]
    simp only [BoundedQueuePtr.popN, hpop]
    rw [ih h.of_cons]

/-! Claims C1, C2, C5 -/

/-- C1: on the FIFO facades (Queue and BoundedQueue), a sequence of pushes by a
single producer followed by pops by a single consumer delivers the elements in
submission order: popping as many times as there were pushes yields exactly the
pushed list, leaving the container empty. The bounded facade needs capacity at
least the number of pushes for all pushes to complete. -/
theorem c1_fifo_order (xs : List Int) (M : Nat) (hM : xs.length ≤ M) :
    QueuePtr.popN (dequeGQ Int) xs.length (QueuePtr.pushAll (dequeGQ Int) (Queue.new Int) xs)
      = some (xs, Deque.empty)
    ∧ BoundedQueuePtr.pushAll (dequeGQ Int) (BoundedQueue.new Int M) xs = some ⟨⟨xs⟩, M⟩
    ∧ BoundedQueuePtr.popN (dequeGQ Int) xs.length ⟨⟨xs⟩, M⟩
        = some (xs, ⟨⟨[]⟩, M⟩) := by
  refine ⟨?_, ?_, ?_⟩
  · have h1 : QueuePtr.pushAll (dequeGQ Int) (Queue.new Int) xs = ⟨xs⟩ := by
      have := deque_pushAll Int [] xs
      simpa [Queue.new, Deque.empty] using this
    rw [h1, deque_popN Int xs.length xs (Nat.le_refl _)]
    simp [Deque.empty]
  · have := bounded_pushAll Int M [] xs (by simpa using hM)
    simpa [BoundedQueue.new, BoundedQueuePtr.new, Deque.empty] using this
  · have := bounded_popN Int M xs.length xs (Nat.le_refl _)
    simpa using this

/-- C1 witness: pushing 1,2,3 then popping three times yields 1,2,3 on both
FIFO facades, with capacity 3 for the bounded one. -/
theorem c1_fifo_order_witness :
    QueuePtr.popN (dequeGQ Int) 3 (QueuePtr.pushAll (dequeGQ Int) (Queue.new Int) [1, 2, 3])
      = some ([1, 2, 3], Deque.empty)
    ∧ BoundedQueuePtr.pushAll (dequeGQ Int) (BoundedQueue.new Int 3) [1, 2, 3]
        = some ⟨⟨[1, 2, 3]⟩, 3⟩
    ∧ BoundedQueuePtr.popN (dequeGQ Int) 3 ⟨⟨[1, 2, 3]⟩, 3⟩
        = some ([1, 2, 3], ⟨⟨[]⟩, 3⟩) :=
  c1_fifo_order [1, 2, 3] 3 (by decide)

/-- C2: on both priority facades (BlockingPriorityQueue and
BoundedPriorityQueue), for any finite sequence of pushes all completed before
any pop, popping them all yields a list that is non-increasing in the element
order and a permutation of the pushed multiset; in particular pushing
3,1,4,1,5,9,2,6 and popping eight times yields 9,6,5,4,3,2,1,1 on either
facade. The bounded facade needs capacity at least the number of pushes for
all pushes to complete. -/
theorem c2_priority_order (xs : List Int) (M : Nat) (hM : xs.length ≤ M) :
    (QueuePtr.popN (priorityGQ Int) xs.length
        (QueuePtr.pushAll (priorityGQ Int) (BlockingPriorityQueue.new Int) xs)).map Prod.fst
      = some (QueuePtr.pushAll (priorityGQ Int) (BlockingPriorityQueue.new Int) xs).items
    ∧ (QueuePtr.pushAll (priorityGQ Int)
        (BlockingPriorityQueue.new Int) xs).items.Sorted (· ≥ ·)
    ∧ (QueuePtr.pushAll (priorityGQ Int) (BlockingPriorityQueue.new Int) xs).items.Perm xs
    ∧ BoundedQueuePtr.pushAll (priorityGQ Int) (BoundedPriorityQueue.new Int M) xs
        = some ⟨QueuePtr.pushAll (priorityGQ Int) (BlockingPriorityQueue.new Int) xs, M⟩
    ∧ (BoundedQueuePtr.popN (priorityGQ Int) xs.length
        ⟨QueuePtr.pushAll (priorityGQ Int) (BlockingPriorityQueue.new Int) xs, M⟩).map
          Prod.fst
      = some (QueuePtr.pushAll (priorityGQ Int) (BlockingPriorityQueue.new Int) xs).items
    ∧ (QueuePtr.popN (priorityGQ Int) 8
        (QueuePtr.pushAll (priorityGQ Int) (BlockingPriorityQueue.new Int)
          [3, 1, 4, 1, 5, 9, 2, 6])).map Prod.fst
      = some [9, 6, 5, 4, 3, 2, 1, 1]
    ∧ (BoundedQueuePtr.popN (priorityGQ Int) 8
        ⟨QueuePtr.pushAll (priorityGQ Int) (BlockingPriorityQueue.new Int)
          [3, 1, 4, 1, 5, 9, 2, 6], 8⟩).map Prod.fst
      = some [9, 6, 5, 4, 3, 2, 1, 1] := by
  set q := QueuePtr.pushAll (priorityGQ Int) (BlockingPriorityQueue.new Int) xs with hq
  have hperm : q.items.Perm xs := by
    have := pq_pushAll_perm Int (BlockingPriorityQueue.new Int) xs
    simpa [BlockingPriorityQueue.new, PriorityQueue.empty] using this
  have hlen : xs.length = q.items.length := (hperm.length_eq).symm
  refine ⟨?_, q.sorted, hperm, ?_, ?_, by decide, by decide⟩
  · rw [hlen]
    have hpops : QueuePtr.popN (priorityGQ Int) q.items.length q
        = some (q.items, ⟨[], List.sorted_nil⟩) := by
      have := pq_popN_all Int q.items q.sorted
      convert this
    rw [hpops]
    rfl
  · have := pq_bounded_pushAll Int M (BlockingPriorityQueue.new Int) xs
      (by simpa [BlockingPriorityQueue.new, PriorityQueue.empty] using hM)
    simpa [BoundedPriorityQueue.new, BoundedQueuePtr.new, BlockingPriorityQueue.new] using
      this
  · rw [hlen]
    have hpops : BoundedQueuePtr.popN (priorityGQ Int) q.items.length ⟨q, M⟩
        = some (q.items, ⟨⟨[], List.sorted_nil⟩, M⟩) := by
      have := pq_bounded_popN Int M q.items q.sorted
      convert this
    rw [hpops]
    rfl

/-- C2 witness: the S2 pushes with bounded capacity 8: both facades deliver
the sorted non-increasing permutation of the pushes. -/
theorem c2_priority_order_witness :
    (QueuePtr.popN (priorityGQ Int) ([3, 1, 4, 1, 5, 9, 2, 6] : List Int).length
        (QueuePtr.pushAll (priorityGQ Int) (BlockingPriorityQueue.new Int)
          [3, 1, 4, 1, 5, 9, 2, 6])).map Prod.fst
      = some (QueuePtr.pushAll (priorityGQ Int) (BlockingPriorityQueue.new Int)
          [3, 1, 4, 1, 5, 9, 2, 6]).items
    ∧ (QueuePtr.pushAll (priorityGQ Int) (BlockingPriorityQueue.new Int)
        [3, 1, 4, 1, 5, 9, 2, 6]).items.Sorted (· ≥ ·)
    ∧ (QueuePtr.pushAll (priorityGQ Int) (BlockingPriorityQueue.new Int)
        [3, 1, 4, 1, 5, 9, 2, 6]).items.Perm [3, 1, 4, 1, 5, 9, 2, 6]
    ∧ BoundedQueuePtr.pushAll (priorityGQ Int) (BoundedPriorityQueue.new Int 8)
        [3, 1, 4, 1, 5, 9, 2, 6]
        = some ⟨QueuePtr.pushAll (priorityGQ Int) (BlockingPriorityQueue.new Int)
            [3, 1, 4, 1, 5, 9, 2, 6], 8⟩
    ∧ (BoundedQueuePtr.popN (priorityGQ Int) ([3, 1, 4, 1, 5, 9, 2, 6] : List Int).length
        ⟨QueuePtr.pushAll (priorityGQ Int) (BlockingPriorityQueue.new Int)
          [3, 1, 4, 1, 5, 9, 2, 6], 8⟩).map Prod.fst
      = some (QueuePtr.pushAll (priorityGQ Int) (BlockingPriorityQueue.new Int)
          [3, 1, 4, 1, 5, 9, 2, 6]).items
    ∧ (QueuePtr.popN (priorityGQ Int) 8
        (QueuePtr.pushAll (priorityGQ Int) (BlockingPriorityQueue.new Int)
          [3, 1, 4, 1, 5, 9, 2, 6])).map Prod.fst
      = some [9, 6, 5, 4, 3, 2, 1, 1]
    ∧ (BoundedQueuePtr.popN (priorityGQ Int) 8
        ⟨QueuePtr.pushAll (priorityGQ Int) (BlockingPriorityQueue.new Int)
          [3, 1, 4, 1, 5, 9, 2, 6], 8⟩).map Prod.fst
      = some [9, 6, 5, 4, 3, 2, 1, 1] :=
  c2_priority_order [3, 1, 4, 1, 5, 9, 2, 6] 8 (by decide)

/-- C5: in the pop of either monitor cell, once the wait loop exits with
generic_len nonzero, generic_pop yields Some for both container instances, so
the unwrap via get never hits the None branch; consequently a pop whose wait
loop has exited always completes. -/
theorem c5_unwrap_safe (d : Deque Int) (q : PriorityQueue Int)
    (bd : BoundedQueueBox (Deque Int)) (bq : BoundedQueueBox (PriorityQueue Int))
    (hd : (dequeGQ Int).generic_len d ≠ 0)
    (hq : (priorityGQ Int).generic_len q ≠ 0)
    (hbd : (dequeGQ Int).generic_len bd.deque ≠ 0)
    (hbq : (priorityGQ Int).generic_len bq.deque ≠ 0) :
    ((dequeGQ Int).generic_pop d).1.isSome = true
    ∧ ((priorityGQ Int).generic_pop q).1.isSome = true
    ∧ (QueuePtr.pop (dequeGQ Int) d).isSome = true
    ∧ (QueuePtr.pop (priorityGQ Int) q).isSome = true
    ∧ (BoundedQueuePtr.pop (dequeGQ Int) bd).isSome = true
    ∧ (BoundedQueuePtr.pop (priorityGQ Int) bq).isSome = true := by
  have popd : ∀ (d0 : Deque Int), (dequeGQ Int).generic_len d0 ≠ 0 →
      ∃ a d2, (dequeGQ Int).generic_pop d0 = (some a, d2) := by
    intro d0 h0
    match d0 with
    | ⟨[]⟩ => exact absurd rfl h0
    | ⟨x :: xs⟩ => exact ⟨x, ⟨xs⟩, rfl⟩
  have popq : ∀ (q0 : PriorityQueue Int), (priorityGQ Int).generic_len q0 ≠ 0 →
      ∃ a q2, (priorityGQ Int).generic_pop q0 = (some a, q2) := by
    intro q0 h0
    match q0 with
    | ⟨[], _⟩ => exact absurd rfl h0
    | ⟨x :: xs, hs⟩ => exact ⟨x, ⟨xs, hs.of_cons⟩, rfl⟩
  obtain ⟨a1, d1, h1⟩ := popd d hd
  obtain ⟨a2, q1, h2⟩ := popq q hq
  obtain ⟨a3, d3, h3⟩ := popd bd.deque hbd
  obtain ⟨a4, q4, h4⟩ := popq bq.deque hbq
  refine ⟨by rw [h1]; rfl, by rw [h2]; rfl, ?_, ?_, ?_, ?_⟩
  · simp [QueuePtr.pop, hd, h1]
  · simp [QueuePtr.pop, hq, h2]
  · simp [BoundedQueuePtr.pop, hbd, h3]
  · simp [BoundedQueuePtr.pop, hbq, h4]

/-- C5 witness: concrete nonempty containers on which every conjunct holds. -/
theorem c5_unwrap_safe_witness :
    ((dequeGQ Int).generic_pop ⟨[1]⟩).1.isSome = true
    ∧ ((priorityGQ Int).generic_pop ⟨[1], List.sorted_singleton 1⟩).1.isSome = true
    ∧ (QueuePtr.pop (dequeGQ Int) ⟨[1]⟩).isSome = true
    ∧ (QueuePtr.pop (priorityGQ Int) ⟨[1], List.sorted_singleton 1⟩).isSome = true
    ∧ (BoundedQueuePtr.pop (dequeGQ Int) ⟨⟨[1]⟩, 2⟩).isSome = true
    ∧ (BoundedQueuePtr.pop (priorityGQ Int) ⟨⟨[1], List.sorted_singleton 1⟩, 2⟩).isSome
        = true :=
  c5_unwrap_safe ⟨[1]⟩ ⟨[1], List.sorted_singleton 1⟩ ⟨⟨[1]⟩, 2⟩
    ⟨⟨[1], List.sorted_singleton 1⟩, 2⟩
    (by decide) (by decide) (by decide) (by decide)

/-! Bounded monitor: invariant and reachability -/

/-- States of a bounded monitor cell reachable from a given state through
completed pushes and pops. -/
inductive BReach {C α : Type} (gq : GenericQueue C α) (b : BoundedQueueBox C) :
    BoundedQueueBox C → Prop
  | refl : BReach gq b b
  | push (b2 b3 : BoundedQueueBox C) (x : α) : BReach gq b b2 →
      BoundedQueuePtr.push gq b2 x = some b3 → BReach gq b b3
  | pop (b2 b3 : BoundedQueueBox C) (a : α) : BReach gq b b2 →
      BoundedQueuePtr.pop gq b2 = some (a, b3) → BReach gq b b3

/-- C3: on both bounded facades, the capacity invariant len ≤ maximum is
preserved by every completed push and pop (a blocked operation leaves the state
unchanged), and a push from a state whose length equals the capacity never
completes: the wait loop guard len = maximum holds, so push blocks before
inserting. -/
theorem c3_bounded_invariant
    (bd bd2 : BoundedQueueBox (Deque Int)) (bp bp2 : BoundedQueueBox (PriorityQueue Int))
    (x y : Int)
    (hd : bd.deque.items.length ≤ bd.maximum)
    (hp : bp.deque.items.length ≤ bp.maximum)
    (hd2 : bd2.deque.items.length = bd2.maximum)
    (hp2 : bp2.deque.items.length = bp2.maximum) :
    ((BoundedQueuePtr.push (dequeGQ Int) bd x).getD bd).deque.items.length ≤ bd.maximum
    ∧ (((BoundedQueuePtr.pop (dequeGQ Int) bd).map Prod.snd).getD bd).deque.items.length
        ≤ bd.maximum
    ∧ BoundedQueuePtr.push (dequeGQ Int) bd2 x = none
    ∧ ((BoundedQueuePtr.push (priorityGQ Int) bp y).getD bp).deque.items.length ≤ bp.maximum
    ∧ (((BoundedQueuePtr.pop (priorityGQ Int) bp).map Prod.snd).getD bp).deque.items.length
        ≤ bp.maximum
    ∧ BoundedQueuePtr.push (priorityGQ Int) bp2 y = none := by
  refine ⟨?_, ?_, ?_, ?_, ?_, ?_⟩
  · by_cases hc : (dequeGQ Int).generic_len bd.deque = bd.maximum
    · simp [BoundedQueuePtr.push, hc, hd]
    · have hlt : bd.deque.items.length < bd.maximum := Nat.lt_of_le_of_ne hd hc
      simp only [BoundedQueuePtr.push, if_neg hc, Option.getD_some]
      rw [deque_push_len]
      omega
  · by_cases hc : (dequeGQ Int).generic_len bd.deque = 0
    · simp [BoundedQueuePtr.pop, hc, hd]
    · match hb : bd.deque with
      | ⟨[]⟩ => exact absurd rfl (hb ▸ hc)
      | ⟨z :: zs⟩ =>
        have hpop : BoundedQueuePtr.pop (dequeGQ Int) bd
            = some (z, ⟨⟨zs⟩, bd.maximum⟩) := by
          simp only [BoundedQueuePtr.pop, hb]
          rfl
        rw [hpop]
        simp only [Option.map_some', Option.getD_some]
        have : (z :: zs).length ≤ bd.maximum := by
          rw [hb] at hd
          simpa using hd
        simp only [List.length_cons] at this
        omega
  · have hc : (dequeGQ Int).generic_len bd2.deque = bd2.maximum := hd2
    simp [BoundedQueuePtr.push, hc]
  · by_cases hc : (priorityGQ Int).generic_len bp.deque = bp.maximum
    · simp [BoundedQueuePtr.push, hc, hp]
    · have hlt : bp.deque.items.length < bp.maximum := Nat.lt_of_le_of_ne hp hc
      simp only [BoundedQueuePtr.push, if_neg hc, Option.getD_some]
      rw [pq_push_len]
      omega
  · by_cases hc : (priorityGQ Int).generic_len bp.deque = 0
    · simp [BoundedQueuePtr.pop, hc, hp]
    · match hb : bp.deque with
      | ⟨[], _⟩ => exact absurd rfl (hb ▸ hc)
      | ⟨z :: zs, hs⟩ =>
        have hpop : BoundedQueuePtr.pop (priorityGQ Int) bp
            = some (z, ⟨⟨zs, hs.of_cons⟩, bp.maximum⟩) := by
          simp only [BoundedQueuePtr.pop, hb]
          rfl
        rw [hpop]
        simp only [Option.map_some', Option.getD_some]
        have : (z :: zs).length ≤ bp.maximum := by
          have := hp
          rw [hb] at this
          exact this
        simp only [List.length_cons] at this
        omega
  · have hc : (priorityGQ Int).generic_len bp2.deque = bp2.maximum := hp2
    simp [BoundedQueuePtr.push, hc]

/-- C3 witness: a concrete box of capacity 2 holding one element, and a
concrete full box of capacity 1, on both containers. -/
theorem c3_bounded_invariant_witness :
    ((BoundedQueuePtr.push (dequeGQ Int)
        (⟨⟨[5]⟩, 2⟩ : BoundedQueueBox (Deque Int)) 7).getD ⟨⟨[5]⟩, 2⟩).deque.items.length ≤ 2
    ∧ (((BoundedQueuePtr.pop (dequeGQ Int)
        (⟨⟨[5]⟩, 2⟩ : BoundedQueueBox (Deque Int))).map Prod.snd).getD
          ⟨⟨[5]⟩, 2⟩).deque.items.length ≤ 2
    ∧ BoundedQueuePtr.push (dequeGQ Int) (⟨⟨[5]⟩, 1⟩ : BoundedQueueBox (Deque Int)) 7 = none
    ∧ ((BoundedQueuePtr.push (priorityGQ Int)
        (⟨⟨[5], List.sorted_singleton 5⟩, 2⟩ : BoundedQueueBox (PriorityQueue Int)) 7).getD
          ⟨⟨[5], List.sorted_singleton 5⟩, 2⟩).deque.items.length ≤ 2
    ∧ (((BoundedQueuePtr.pop (priorityGQ Int)
        (⟨⟨[5], List.sorted_singleton 5⟩, 2⟩ : BoundedQueueBox (PriorityQueue Int))).map
          Prod.snd).getD ⟨⟨[5], List.sorted_singleton 5⟩, 2⟩).deque.items.length ≤ 2
    ∧ BoundedQueuePtr.push (priorityGQ Int)
        (⟨⟨[5], List.sorted_singleton 5⟩, 1⟩ : BoundedQueueBox (PriorityQueue Int)) 7
      = none :=
  c3_bounded_invariant ⟨⟨[5]⟩, 2⟩ ⟨⟨[5]⟩, 1⟩ ⟨⟨[5], List.sorted_singleton 5⟩, 2⟩
    ⟨⟨[5], List.sorted_singleton 5⟩, 1⟩ 7 7 (by decide) (by decide) (by decide) (by decide)

/-- C9: a bounded facade constructed with maximum 0 is accepted by new without
validation, and from it no push and no pop ever completes: the push wait guard
len = maximum and the pop wait guard len = 0 both hold in the initial state,
the only reachable state. -/
theorem c9_capacity_zero
    (bd : BoundedQueueBox (Deque Int)) (bp : BoundedQueueBox (PriorityQueue Int))
    (x y : Int)
    (hd : BReach (dequeGQ Int) (BoundedQueue.new Int 0) bd)
    (hp : BReach (priorityGQ Int) (BoundedPriorityQueue.new Int 0) bp) :
    bd = BoundedQueue.new Int 0
    ∧ bp = BoundedPriorityQueue.new Int 0
    ∧ BoundedQueuePtr.push (dequeGQ Int) bd x = none
    ∧ BoundedQueuePtr.pop (dequeGQ Int) bd = none
    ∧ BoundedQueuePtr.push (priorityGQ Int) bp y = none
    ∧ BoundedQueuePtr.pop (priorityGQ Int) bp = none
    ∧ (BoundedQueue.new Int 0).maximum = 0
    ∧ (BoundedQueue.new Int 0).deque.items = [] := by
  have hdz : ∀ (z : Int), BoundedQueuePtr.push (dequeGQ Int) (BoundedQueue.new Int 0) z
      = none := fun _ => rfl
  have hdp : BoundedQueuePtr.pop (dequeGQ Int) (BoundedQueue.new Int 0) = none := rfl
  have hpz : ∀ (z : Int),
      BoundedQueuePtr.push (priorityGQ Int) (BoundedPriorityQueue.new Int 0) z = none :=
    fun _ => rfl
  have hpp : BoundedQueuePtr.pop (priorityGQ Int) (BoundedPriorityQueue.new Int 0) = none :=
    rfl
  have hbd : bd = BoundedQueue.new Int 0 := by
    induction hd with
    | refl => rfl
    | push b2 b3 z hr hpu ih =>
      rw [ih] at hpu
      rw [hdz z] at hpu
      exact Option.noConfusion hpu
    | pop b2 b3 a hr hpo ih =>
      rw [ih] at hpo
      rw [hdp] at hpo
      exact Option.noConfusion hpo
  have hbp : bp = BoundedPriorityQueue.new Int 0 := by
    induction hp with
    | refl => rfl
    | push b2 b3 z hr hpu ih =>
      rw [ih] at hpu
      rw [hpz z] at hpu
      exact Option.noConfusion hpu
    | pop b2 b3 a hr hpo ih =>
      rw [ih] at hpo
      rw [hpp] at hpo
      exact Option.noConfusion hpo
  refine ⟨hbd, hbp, ?_, ?_, ?_, ?_, rfl, rfl⟩
  · rw [hbd]; exact hdz x
  · rw [hbd]; exact hdp
  · rw [hbp]; exact hpz y
  · rw [hbp]; exact hpp

/-- C9 witness: the initial capacity-0 boxes themselves. -/
theorem c9_capacity_zero_witness :
    BoundedQueue.new Int 0 = BoundedQueue.new Int 0
    ∧ BoundedPriorityQueue.new Int 0 = BoundedPriorityQueue.new Int 0
    ∧ BoundedQueuePtr.push (dequeGQ Int) (BoundedQueue.new Int 0) 1 = none
    ∧ BoundedQueuePtr.pop (dequeGQ Int) (BoundedQueue.new Int 0) = none
    ∧ BoundedQueuePtr.push (priorityGQ Int) (BoundedPriorityQueue.new Int 0) 2 = none
    ∧ BoundedQueuePtr.pop (priorityGQ Int) (BoundedPriorityQueue.new Int 0) = none
    ∧ (BoundedQueue.new Int 0).maximum = 0
    ∧ (BoundedQueue.new Int 0).deque.items = [] :=
  c9_capacity_zero (BoundedQueue.new Int 0) (BoundedPriorityQueue.new Int 0) 1 2
    BReach.refl BReach.refl

/-! The worker pool of src/core/thread.rs -/

/-- The Pool of src/core/thread.rs: the shared unbounded FIFO queue of optional
tasks, and the vector of worker thread handles. A task is modelled by an
identifier of an arbitrary type; a thread handle by a unit, the worker count
being what Drop uses. -/
structure Pool (τ : Type) where
  queue : Deque (Option τ)
  pool : List Unit

/-- Pool.new: creates the shared queue and spawns n_threads workers, each
looping on pop, running a Some task and breaking on None. -/
def Pool.new (τ : Type) (n_threads : Nat) : Pool τ :=
  ⟨Queue.new (Option τ), List.replicate n_threads ()⟩

/-- Pool.submit: push Some task onto the shared queue. -/
def Pool.submit {τ : Type} (p : Pool τ) (task : τ) : Pool τ :=
  ⟨QueuePtr.push (dequeGQ (Option τ)) p.queue (some task), p.pool⟩

/-- A sequence of submit calls by the thread owning the pool. -/
def Pool.submitAll {τ : Type} (p : Pool τ) (ts : List τ) : Pool τ :=
  ts.foldl Pool.submit p

/-- The loop body of the Drop impl for Pool, with k iterations left: each
iteration pushes one None sentinel. -/
def Pool.dropPushes {τ : Type} (p : Pool τ) : Nat → Pool τ
  | 0 => p
  | k + 1 => Pool.dropPushes ⟨QueuePtr.push (dequeGQ (Option τ)) p.queue none, p.pool⟩ k

/-- The Drop impl for Pool: push one None per worker handle in the pool vector,
then join all workers via handle drop. -/
def Pool.drop {τ : Type} (p : Pool τ) : Pool τ :=
  Pool.dropPushes p p.pool.length

/-- One worker of Pool.new: pop in a loop, run each Some task, exit on None.
Returns the tasks this worker ran and the remaining queue content; on an empty
queue the worker is blocked in pop, having run nothing. -/
def workerLoop {τ : Type} : List (Option τ) → List τ × List (Option τ)
  | [] => ([], [])
  | none :: rest => ([], rest)
  | some t :: rest =>
    let r := workerLoop rest
    (t :: r.1, r.2)

/-- The n workers consuming the queue, serialized; only workers pop from the
pool queue. -/
def runWorkers {τ : Type} : Nat → List (Option τ) → List τ × List (Option τ)
  | 0, q => ([], q)
  | n + 1, q =>
    let r := workerLoop q
    let r2 := runWorkers n r.2
    (r.1 ++ r2.1, r2.2)

theorem submitAll_queue (τ : Type) (l : List (Option τ)) (w : List Unit) (ts : List τ) :
    Pool.submitAll ⟨⟨l⟩, w⟩ ts = ⟨⟨l ++ ts.map some⟩, w⟩ := by
  induction ts generalizing l with
  | nil => simp [Pool.submitAll]
  | cons t ts ih =>
    have hstep : Pool.submitAll ⟨⟨l⟩, w⟩ (t :: ts)
        = Pool.submitAll ⟨⟨l ++ [some t]⟩, w⟩ ts := rfl
    rw [hstep, ih (l ++ [some t])]
    simp

theorem dropPushes_queue (τ : Type) (l : List (Option τ)) (w : List Unit) (k : Nat) :
    Pool.dropPushes ⟨⟨l⟩, w⟩ k = ⟨⟨l ++ List.replicate k none⟩, w⟩ := by
  induction k generalizing l with
  | zero => simp [Pool.dropPushes]
  | succ k ih =>
    have hstep : Pool.dropPushes (⟨⟨l⟩, w⟩ : Pool τ) (k + 1)
        = Pool.dropPushes ⟨⟨l ++ [none]⟩, w⟩ k := rfl
    rw [hstep, ih (l ++ [none])]
    simp [List.replicate_succ]

theorem workerLoop_somes (τ : Type) (ts : List τ) (rest : List (Option τ)) :
    workerLoop (ts.map some ++ rest)
      = (ts ++ (workerLoop rest).1, (workerLoop rest).2) := by
  induction ts with
  | nil => simp
  | cons t ts ih =>
    have hstep : workerLoop ((t :: ts).map some ++ rest)
        = (t :: (workerLoop (ts.map some ++ rest)).1,
           (workerLoop (ts.map some ++ rest)).2) := rfl
    rw [hstep, ih]
    simp

theorem runWorkers_sentinels (τ : Type) (n : Nat) :
    runWorkers n (List.replicate n (none : Option τ)) = ([], []) := by
  induction n with
  | zero => simp [runWorkers]
  | succ n ih =>
    have hstep : runWorkers (n + 1) (List.replicate (n + 1) (none : Option τ))
        = ((workerLoop (List.replicate (n + 1) (none : Option τ))).1
            ++ (runWorkers n (workerLoop (List.replicate (n + 1) (none : Option τ))).2).1,
           (runWorkers n (workerLoop (List.replicate (n + 1) (none : Option τ))).2).2) := rfl
    have hw : workerLoop (List.replicate (n + 1) (none : Option τ))
        = ([], List.replicate n none) := rfl
    rw [hstep, hw]
    simp [ih]

/-! Claims C4 and C10 -/

/-- C4: destroying a pool with n workers pushes exactly n None sentinels, one
per worker handle, after every prior submit on the FIFO queue: the final queue
content is the submitted tasks wrapped in Some followed by exactly n None
values, so FIFO popping delivers every submitted task before any sentinel, and
the n workers collectively run exactly the submitted tasks in submission order
and all terminate, draining the queue. -/
theorem c4_pool_drain (ts : List Int) (n : Nat) (hn : 1 ≤ n) :
    (Pool.drop (Pool.submitAll (Pool.new Int n) ts)).queue.items
      = ts.map some ++ List.replicate n none
    ∧ (Pool.drop (Pool.submitAll (Pool.new Int n) ts)).pool.length = n
    ∧ List.count none (Pool.drop (Pool.submitAll (Pool.new Int n) ts)).queue.items = n
    ∧ QueuePtr.popN (dequeGQ (Option Int)) ts.length
        (Pool.drop (Pool.submitAll (Pool.new Int n) ts)).queue
      = some (ts.map some, ⟨List.replicate n none⟩)
    ∧ runWorkers n (Pool.drop (Pool.submitAll (Pool.new Int n) ts)).queue.items
      = (ts, []) := by
  have hsub : Pool.submitAll (Pool.new Int n) ts
      = ⟨⟨ts.map some⟩, List.replicate n ()⟩ := by
    have := submitAll_queue Int [] (List.replicate n ()) ts
    simpa [Pool.new, Queue.new, Deque.empty] using this
  have hdrop : Pool.drop (Pool.submitAll (Pool.new Int n) ts)
      = ⟨⟨ts.map some ++ List.replicate n none⟩, List.replicate n ()⟩ := by
    rw [hsub]
    have := dropPushes_queue Int (ts.map some) (List.replicate n ()) n
    simpa [Pool.drop] using this
  rw [hdrop]
  refine ⟨rfl, by simp, ?_, ?_, ?_⟩
  · simp only [List.count_append]
    have h1 : List.count none (ts.map some) = 0 := by
      rw [List.count_eq_zero]
      intro hmem
      obtain ⟨t, _, ht⟩ := List.mem_map.mp hmem
      exact Option.noConfusion ht
    rw [h1, List.count_replicate_self]
    omega
  · have := deque_popN (Option Int) ts.length (ts.map some ++ List.replicate n none)
      (by simp)
    rw [this]
    congr 1
    rw [Prod.ext_iff]
    constructor
    · simp [List.take_left']
    · simp [List.drop_left']
  · match n, hn with
    | m + 1, _ =>
      have h1 : workerLoop (ts.map some ++ List.replicate (m + 1) (none : Option Int))
          = (ts, List.replicate m none) := by
        rw [workerLoop_somes]
        simp [show workerLoop (List.replicate (m + 1) (none : Option Int))
            = ([], List.replicate m none) from rfl]
      have hstep : runWorkers (m + 1) (ts.map some ++ List.replicate (m + 1) none)
          = ((workerLoop (ts.map some ++ List.replicate (m + 1) (none : Option Int))).1
              ++ (runWorkers m (workerLoop
                    (ts.map some ++ List.replicate (m + 1) (none : Option Int))).2).1,
             (runWorkers m (workerLoop
                  (ts.map some ++ List.replicate (m + 1) (none : Option Int))).2).2) := rfl
      rw [hstep, h1]
      simp [runWorkers_sentinels]

/-- C4 witness: two tasks, two workers. -/
theorem c4_pool_drain_witness :
    (Pool.drop (Pool.submitAll (Pool.new Int 2) [1, 2])).queue.items
      = [1, 2].map some ++ List.replicate 2 none
    ∧ (Pool.drop (Pool.submitAll (Pool.new Int 2) [1, 2])).pool.length = 2
    ∧ List.count none (Pool.drop (Pool.submitAll (Pool.new Int 2) [1, 2])).queue.items = 2
    ∧ QueuePtr.popN (dequeGQ (Option Int)) ([1, 2] : List Int).length
        (Pool.drop (Pool.submitAll (Pool.new Int 2) [1, 2])).queue
      = some (([1, 2] : List Int).map some, ⟨List.replicate 2 none⟩)
    ∧ runWorkers 2 (Pool.drop (Pool.submitAll (Pool.new Int 2) [1, 2])).queue.items
      = ([1, 2], []) :=
  c4_pool_drain [1, 2] 2 (by decide)

/-- C10: a pool constructed with zero threads is accepted: it spawns no worker,
its destructor pushes zero sentinels, and submitted tasks stay enqueued as Some
values that no worker ever dequeues or runs. -/
theorem c10_pool_zero_workers (ts : List Int) :
    (Pool.new Int 0).pool = []
    ∧ (Pool.drop (Pool.submitAll (Pool.new Int 0) ts)).queue.items = ts.map some
    ∧ (Pool.drop (Pool.submitAll (Pool.new Int 0) ts)).pool = []
    ∧ runWorkers (Pool.new Int 0).pool.length
        (Pool.drop (Pool.submitAll (Pool.new Int 0) ts)).queue.items
      = ([], ts.map some) := by
  have hsub : Pool.submitAll (Pool.new Int 0) ts = ⟨⟨ts.map some⟩, []⟩ := by
    have := submitAll_queue Int [] [] ts
    simpa [Pool.new, Queue.new, Deque.empty] using this
  have hdrop : Pool.drop (Pool.submitAll (Pool.new Int 0) ts) = ⟨⟨ts.map some⟩, []⟩ := by
    rw [hsub]
    rfl
  rw [hdrop]
  exact ⟨rfl, by simp, rfl, rfl⟩

/-! Platform primitive error handling of src/core/thread.rs

Each function is modelled over the return codes of the platform calls it
makes, in call order. A some result is a normal return; none is a process
abort. -/

/-- The EBUSY constant of src/core/thread.rs. -/
def EBUSY : Int := 16

/-- The abort-on-failure pattern shared by the explicit abort sites and the
assert sites of src/core/thread.rs. -/
def fatalCheck (rc : Int) : Option Unit :=
  if rc = 0 then some () else none

/-- spawn: pthread_create checked, abort on non-success. -/
def spawn_check (rc_create : Int) : Option Unit := fatalCheck rc_create

/-- Thread.join and the Drop impl for Thread: assert on pthread_join. -/
def join_check (rc_join : Int) : Option Unit := fatalCheck rc_join

/-- deschedule: assert on sched_yield. -/
def deschedule_check (rc : Int) : Option Unit := fatalCheck rc

/-- Mutex.new, release build: pthread_mutex_init checked. -/
def mutex_new_check (rc_init : Int) : Option Unit := fatalCheck rc_init

/-- Mutex.new, debug build: mutexattr_init, mutexattr_settype, mutex_init,
mutexattr_destroy, all checked in call order. -/
def mutex_new_debug_check (rc_attr_init rc_settype rc_init rc_attr_destroy : Int) :
    Option Unit :=
  (fatalCheck rc_attr_init).bind fun _ =>
    (fatalCheck rc_settype).bind fun _ =>
      (fatalCheck rc_init).bind fun _ => fatalCheck rc_attr_destroy

/-- Mutex.lock: assert on pthread_mutex_lock. -/
def mutex_lock_check (rc : Int) : Option Unit := fatalCheck rc

/-- Mutex.unlock: assert on pthread_mutex_unlock. -/
def mutex_unlock_check (rc : Int) : Option Unit := fatalCheck rc

/-- The Drop impl for Mutex: assert on pthread_mutex_destroy. -/
def mutex_drop_check (rc : Int) : Option Unit := fatalCheck rc

/-- Mutex.trylock: EBUSY is reported as false, success as true, anything else
hits the assert and aborts. -/
def trylock_check (rc : Int) : Option Bool :=
  if rc = EBUSY then some false
  else if rc = 0 then some true
  else none

/-- Cond.new: pthread_cond_init checked. -/
def cond_new_check (rc : Int) : Option Unit := fatalCheck rc

/-- Cond.signal: assert on pthread_cond_signal. -/
def cond_signal_check (rc : Int) : Option Unit := fatalCheck rc

/-- Cond.broadcast: assert on pthread_cond_broadcast. -/
def cond_broadcast_check (rc : Int) : Option Unit := fatalCheck rc

/-- Cond.wait: assert on pthread_cond_wait. -/
def cond_wait_check (rc : Int) : Option Unit := fatalCheck rc

/-- The Drop impl for Cond: assert on pthread_cond_destroy. -/
def cond_drop_check (rc : Int) : Option Unit := fatalCheck rc

/-- spawn_detached: pthread_attr_init checked; the return value of
pthread_attr_setdetachstate is discarded by the source; pthread_create
checked; assert on pthread_attr_destroy. -/
def spawn_detached_check (rc_attr_init _rc_setdetach rc_create rc_attr_destroy : Int) :
    Option Unit :=
  (fatalCheck rc_attr_init).bind fun _ =>
    (fatalCheck rc_create).bind fun _ => fatalCheck rc_attr_destroy

/-- C6 counterexample: a non-success return (1) from the attribute-setup call
pthread_attr_setdetachstate inside spawn_detached does not abort the process:
the source discards that return value, so not every non-success platform
return outside trylock is fatal. -/
theorem c6_counterexample : spawn_detached_check 0 1 0 0 = some () := rfl

/-- C6 amended: every checked platform-primitive call site aborts the process
on any non-success return whatsoever, EBUSY included, with two exceptions:
trylock, where EBUSY is reported as false and success as true while any other
non-success return aborts, and pthread_attr_setdetachstate in spawn_detached,
whose return value is ignored. -/
theorem c6_fatal_errors (rc rc2 : Int) (h0 : rc ≠ 0) (h2a : rc2 ≠ 0)
    (h2b : rc2 ≠ EBUSY) :
    spawn_check rc = none
    ∧ join_check rc = none
    ∧ deschedule_check rc = none
    ∧ mutex_new_check rc = none
    ∧ mutex_new_debug_check rc 0 0 0 = none
    ∧ mutex_new_debug_check 0 rc 0 0 = none
    ∧ mutex_new_debug_check 0 0 rc 0 = none
    ∧ mutex_new_debug_check 0 0 0 rc = none
    ∧ mutex_lock_check rc = none
    ∧ mutex_unlock_check rc = none
    ∧ mutex_drop_check rc = none
    ∧ cond_new_check rc = none
    ∧ cond_signal_check rc = none
    ∧ cond_broadcast_check rc = none
    ∧ cond_wait_check rc = none
    ∧ cond_drop_check rc = none
    ∧ spawn_detached_check rc 0 0 0 = none
    ∧ spawn_detached_check 0 0 rc 0 = none
    ∧ spawn_detached_check 0 0 0 rc = none
    ∧ trylock_check rc2 = none
    ∧ trylock_check EBUSY = some false
    ∧ trylock_check 0 = some true
    ∧ spawn_detached_check 0 rc 0 0 = some () := by
  simp [spawn_check, join_check, deschedule_check, mutex_new_check,
    mutex_new_debug_check, mutex_lock_check, mutex_unlock_check, mutex_drop_check,
    cond_new_check, cond_signal_check, cond_broadcast_check, cond_wait_check,
    cond_drop_check, spawn_detached_check, trylock_check, fatalCheck, EBUSY, h0, h2a,
    show rc2 ≠ 16 by simpa [EBUSY] using h2b]

/-- C6 witness: the amended statement at return code 16 (EBUSY) for the fatal
sites, showing that even EBUSY from mutex or condvar destroy aborts, and at
return code 7 for trylock. -/
theorem c6_fatal_errors_witness :
    spawn_check 16 = none
    ∧ join_check 16 = none
    ∧ deschedule_check 16 = none
    ∧ mutex_new_check 16 = none
    ∧ mutex_new_debug_check 16 0 0 0 = none
    ∧ mutex_new_debug_check 0 16 0 0 = none
    ∧ mutex_new_debug_check 0 0 16 0 = none
    ∧ mutex_new_debug_check 0 0 0 16 = none
    ∧ mutex_lock_check 16 = none
    ∧ mutex_unlock_check 16 = none
    ∧ mutex_drop_check 16 = none
    ∧ cond_new_check 16 = none
    ∧ cond_signal_check 16 = none
    ∧ cond_broadcast_check 16 = none
    ∧ cond_wait_check 16 = none
    ∧ cond_drop_check 16 = none
    ∧ spawn_detached_check 16 0 0 0 = none
    ∧ spawn_detached_check 0 0 16 0 = none
    ∧ spawn_detached_check 0 0 0 16 = none
    ∧ trylock_check 7 = none
    ∧ trylock_check EBUSY = some false
    ∧ trylock_check 0 = some true
    ∧ spawn_detached_check 0 16 0 0 = some () :=
  c6_fatal_errors 16 7 (by decide) (by decide) (by decide)

/-! Shared ownership: the Clone impls over the reference-counted cell -/

/-- Modelled from the spec: the reference-counted shared-ownership container
(its source file is not under src/). The heap holds cells addressed by index;
a live cell is some (content, refcount), a destroyed cell none. A facade value
is the index of its cell. -/
structure ArcHeap (C : Type) where
  cells : List (Option (C × Nat))
deriving DecidableEq

def listSet {β : Type} : List β → Nat → β → List β
  | [], _, _ => []
  | _ :: xs, 0, v => v :: xs
  | x :: xs, i + 1, v => x :: listSet xs i v

/-- Allocating a fresh cell with refcount 1; the new facade is its index. -/
def Arc.new {C : Type} (h : ArcHeap C) (c : C) : Nat × ArcHeap C :=
  (h.cells.length, ⟨h.cells ++ [some (c, 1)]⟩)

/-- The Clone impls of QueuePtr and BoundedQueuePtr: a pointer copy, returning
the same index, with a refcount increment on the shared cell. -/
def Arc.clone {C : Type} (h : ArcHeap C) (i : Nat) : Nat × ArcHeap C :=
  match h.cells[i]? with
  | some (some (c, k)) => (i, ⟨listSet h.cells i (some (c, k + 1))⟩)
  | _ => (i, h)

/-- Dropping one facade: decrement the refcount; the cell is destroyed only
when the last facade referring to it is dropped. -/
def Arc.dropRef {C : Type} (h : ArcHeap C) (i : Nat) : ArcHeap C :=
  match h.cells[i]? with
  | some (some (c, k + 2)) => ⟨listSet h.cells i (some (c, k + 1))⟩
  | some (some (_, _)) => ⟨listSet h.cells i none⟩
  | _ => h

/-- Borrowing the cell content through a facade. -/
def Arc.read {C : Type} (h : ArcHeap C) (i : Nat) : Option C :=
  match h.cells[i]? with
  | some (some (c, _)) => some c
  | _ => none

/-- A push through a facade of an unbounded monitor cell mutates the shared
cell in place. -/
def facadePush {C α : Type} (gq : GenericQueue C α) (h : ArcHeap C) (i : Nat) (x : α) :
    ArcHeap C :=
  match h.cells[i]? with
  | some (some (c, k)) => ⟨listSet h.cells i (some (QueuePtr.push gq c x, k))⟩
  | _ => h

/-- A pop through a facade of an unbounded monitor cell mutates the shared
cell and returns the item. -/
def facadePop {C α : Type} (gq : GenericQueue C α) (h : ArcHeap C) (i : Nat) :
    Option α × ArcHeap C :=
  match h.cells[i]? with
  | some (some (c, k)) =>
    match QueuePtr.pop gq c with
    | some (a, c2) => (some a, ⟨listSet h.cells i (some (c2, k))⟩)
    | none => (none, h)
  | _ => (none, h)

/-- A push through a facade of a bounded monitor cell; a blocked push leaves
the cell unchanged. -/
def facadePushB {C α : Type} (gq : GenericQueue C α) (h : ArcHeap (BoundedQueueBox C))
    (i : Nat) (x : α) : ArcHeap (BoundedQueueBox C) :=
  match h.cells[i]? with
  | some (some (b, k)) =>
    match BoundedQueuePtr.push gq b x with
    | some b2 => ⟨listSet h.cells i (some (b2, k))⟩
    | none => h
  | _ => h

/-- A pop through a facade of a bounded monitor cell. -/
def facadePopB {C α : Type} (gq : GenericQueue C α) (h : ArcHeap (BoundedQueueBox C))
    (i : Nat) : Option α × ArcHeap (BoundedQueueBox C) :=
  match h.cells[i]? with
  | some (some (b, k)) =>
    match BoundedQueuePtr.pop gq b with
    | some (a, b2) => (some a, ⟨listSet h.cells i (some (b2, k))⟩)
    | none => (none, h)
  | _ => (none, h)

theorem listSet_getElem_self {β : Type} (l : List β) (i : Nat) (v : β)
    (h : i < l.length) : (listSet l i v)[i]? = some v := by
  induction l generalizing i with
  | nil => simp at h
  | cons a l ih =>
    match i with
    | 0 =>
      rw [show listSet (a :: l) 0 v = v :: l from rfl, List.getElem?_cons_zero]
    | n + 1 =>
      show (a :: listSet l n v)[n + 1]? = some v
      rw [List.getElem?_cons_succ]
      exact ih n (Nat.lt_of_succ_lt_succ h)

theorem lt_length_of_getElem_some {β : Type} (l : List β) (i : Nat) (v : β)
    (h : l[i]? = some v) : i < l.length := by
  by_contra hge
  rw [List.getElem?_eq_none (Nat.le_of_not_lt hge)] at h
  exact Option.noConfusion h

theorem arc_clone_fst {C : Type} (h : ArcHeap C) (i : Nat) : (Arc.clone h i).1 = i := by
  cases hc : h.cells[i]? with
  | none => simp [Arc.clone, hc]
  | some v =>
    cases v with
    | none => simp [Arc.clone, hc]
    | some p =>
      cases p with
      | mk c k => simp [Arc.clone, hc]

theorem arc_clone_count {C : Type} (h : ArcHeap C) (i : Nat) (c : C) (k : Nat)
    (hc : h.cells[i]? = some (some (c, k))) :
    (Arc.clone h i).2.cells[i]? = some (some (c, k + 1)) := by
  have hcells : (Arc.clone h i).2.cells = listSet h.cells i (some (c, k + 1)) := by
    simp [Arc.clone, hc]
  rw [hcells]
  exact listSet_getElem_self _ _ _ (lt_length_of_getElem_some _ _ _ hc)

theorem arc_drop_live {C : Type} (h : ArcHeap C) (i : Nat) (c : C) (k : Nat)
    (hc : h.cells[i]? = some (some (c, k + 2))) :
    Arc.read (Arc.dropRef h i) i = some c := by
  have hcells : (Arc.dropRef h i).cells = listSet h.cells i (some (c, k + 1)) := by
    simp [Arc.dropRef, hc]
  unfold Arc.read
  rw [hcells, listSet_getElem_self _ _ _ (lt_length_of_getElem_some _ _ _ hc)]

theorem arc_drop_last {C : Type} (h : ArcHeap C) (i : Nat) (c : C)
    (hc : h.cells[i]? = some (some (c, 1))) :
    (Arc.dropRef h i).cells[i]? = some none := by
  have hcells : (Arc.dropRef h i).cells = listSet h.cells i none := by
    simp [Arc.dropRef, hc]
  rw [hcells]
  exact listSet_getElem_self _ _ _ (lt_length_of_getElem_some _ _ _ hc)

theorem facadePush_eq {C α : Type} (gq : GenericQueue C α) (h : ArcHeap C) (i : Nat)
    (c : C) (k : Nat) (x : α) (hc : h.cells[i]? = some (some (c, k))) :
    facadePush gq h i x = ⟨listSet h.cells i (some (gq.generic_push c x, k))⟩ := by
  simp [facadePush, hc, QueuePtr.push]

theorem facadePop_fst {C α : Type} (gq : GenericQueue C α) (h : ArcHeap C) (i : Nat)
    (c : C) (k : Nat) (hc : h.cells[i]? = some (some (c, k))) :
    (facadePop gq h i).1 = (QueuePtr.pop gq c).map Prod.fst := by
  simp only [facadePop, hc]
  cases hp : QueuePtr.pop gq c with
  | none => simp
  | some p =>
    cases p with
    | mk a c2 => simp

theorem facadePushB_eq {C α : Type} (gq : GenericQueue C α)
    (h : ArcHeap (BoundedQueueBox C)) (i : Nat) (b : BoundedQueueBox C) (k : Nat)
    (x : α) (b2 : BoundedQueueBox C)
    (hc : h.cells[i]? = some (some (b, k)))
    (hp : BoundedQueuePtr.push gq b x = some b2) :
    facadePushB gq h i x = ⟨listSet h.cells i (some (b2, k))⟩ := by
  simp [facadePushB, hc, hp]

theorem facadePopB_fst {C α : Type} (gq : GenericQueue C α)
    (h : ArcHeap (BoundedQueueBox C)) (i : Nat) (b : BoundedQueueBox C) (k : Nat)
    (hc : h.cells[i]? = some (some (b, k))) :
    (facadePopB gq h i).1 = (BoundedQueuePtr.pop gq b).map Prod.fst := by
  simp only [facadePopB, hc]
  cases hp : BoundedQueuePtr.pop gq b with
  | none => simp
  | some p =>
    cases p with
    | mk a b2 => simp

/-- Pushing through one clone of an unbounded facade and popping through the
original delivers exactly what the shared container delivers after that push:
the two handles drive one cell. -/
theorem facade_clone_visible {C α : Type} (gq : GenericQueue C α) (h : ArcHeap C)
    (i : Nat) (c : C) (k : Nat) (x a : α) (c2 : C)
    (hc : h.cells[i]? = some (some (c, k)))
    (hp : QueuePtr.pop gq (gq.generic_push c x) = some (a, c2)) :
    (facadePop gq (facadePush gq (Arc.clone h i).2 (Arc.clone h i).1 x) i).1 = some a := by
  have hcnt : (Arc.clone h i).2.cells[i]? = some (some (c, k + 1)) :=
    arc_clone_count h i c k hc
  have hb : i < (Arc.clone h i).2.cells.length := lt_length_of_getElem_some _ _ _ hcnt
  rw [arc_clone_fst h i]
  rw [facadePush_eq gq (Arc.clone h i).2 i c (k + 1) x hcnt]
  have hread : (⟨listSet (Arc.clone h i).2.cells i (some (gq.generic_push c x, k + 1))⟩
      : ArcHeap C).cells[i]? = some (some (gq.generic_push c x, k + 1)) :=
    listSet_getElem_self _ _ _ hb
  rw [facadePop_fst gq _ i (gq.generic_push c x) (k + 1) hread]
  rw [hp]
  rfl

/-- The bounded-facade counterpart of facade_clone_visible. -/
theorem facadeB_clone_visible {C α : Type} (gq : GenericQueue C α)
    (h : ArcHeap (BoundedQueueBox C)) (i : Nat) (b : BoundedQueueBox C) (k : Nat)
    (x a : α) (b2 b3 : BoundedQueueBox C)
    (hc : h.cells[i]? = some (some (b, k)))
    (hp : BoundedQueuePtr.push gq b x = some b2)
    (hq : BoundedQueuePtr.pop gq b2 = some (a, b3)) :
    (facadePopB gq (facadePushB gq (Arc.clone h i).2 (Arc.clone h i).1 x) i).1
      = some a := by
  have hcnt : (Arc.clone h i).2.cells[i]? = some (some (b, k + 1)) :=
    arc_clone_count h i b k hc
  have hb : i < (Arc.clone h i).2.cells.length := lt_length_of_getElem_some _ _ _ hcnt
  rw [arc_clone_fst h i]
  rw [facadePushB_eq gq (Arc.clone h i).2 i b (k + 1) x b2 hcnt hp]
  have hread : (⟨listSet (Arc.clone h i).2.cells i (some (b2, k + 1))⟩
      : ArcHeap (BoundedQueueBox C)).cells[i]? = some (some (b2, k + 1)) :=
    listSet_getElem_self _ _ _ hb
  rw [facadePopB_fst gq _ i b2 (k + 1) hread]
  rw [hq]
  rfl

/-- C7: for every facade, clone is shallow. Over arbitrary heaps, cell
indices and reference counts, and for all four facade cell types (unbounded
and bounded, FIFO and priority): cloning returns the same cell index with the
refcount incremented on the same cell; an element pushed through the clone of
a facade over an empty container is the element a pop through the original
delivers; after one of at least two facades is dropped the cell is still live
with the original content; and a cell whose refcount is 1 is destroyed by
dropping its last facade, whatever its content. -/
theorem c7_clone_sharing
    (hd : ArcHeap (Deque Int)) (hq : ArcHeap (PriorityQueue Int))
    (hbd : ArcHeap (BoundedQueueBox (Deque Int)))
    (hbq : ArcHeap (BoundedQueueBox (PriorityQueue Int)))
    (gd : ArcHeap (Deque Int)) (gq2 : ArcHeap (PriorityQueue Int))
    (gbd : ArcHeap (BoundedQueueBox (Deque Int)))
    (gbq : ArcHeap (BoundedQueueBox (PriorityQueue Int)))
    (i1 i2 i3 i4 j1 j2 j3 j4 : Nat) (k1 k2 k3 k4 : Nat) (x y : Int) (M1 M2 : Nat)
    (cd : Deque Int) (cq : PriorityQueue Int)
    (cbd : BoundedQueueBox (Deque Int)) (cbq : BoundedQueueBox (PriorityQueue Int))
    (h1 : hd.cells[i1]? = some (some (Deque.empty, k1 + 1)))
    (h2 : hq.cells[i2]? = some (some (PriorityQueue.empty, k2 + 1)))
    (h3 : hbd.cells[i3]? = some (some (⟨Deque.empty, M1 + 1⟩, k3 + 1)))
    (h4 : hbq.cells[i4]? = some (some (⟨PriorityQueue.empty, M2 + 1⟩, k4 + 1)))
    (g1 : gd.cells[j1]? = some (some (cd, 1)))
    (g2 : gq2.cells[j2]? = some (some (cq, 1)))
    (g3 : gbd.cells[j3]? = some (some (cbd, 1)))
    (g4 : gbq.cells[j4]? = some (some (cbq, 1))) :
    (Arc.clone hd i1).1 = i1
    ∧ (Arc.clone hq i2).1 = i2
    ∧ (Arc.clone hbd i3).1 = i3
    ∧ (Arc.clone hbq i4).1 = i4
    ∧ (Arc.clone hd i1).2.cells[i1]? = some (some (Deque.empty, k1 + 2))
    ∧ (Arc.clone hq i2).2.cells[i2]? = some (some (PriorityQueue.empty, k2 + 2))
    ∧ (Arc.clone hbd i3).2.cells[i3]? = some (some (⟨Deque.empty, M1 + 1⟩, k3 + 2))
    ∧ (Arc.clone hbq i4).2.cells[i4]? = some (some (⟨PriorityQueue.empty, M2 + 1⟩, k4 + 2))
    ∧ (facadePop (dequeGQ Int)
        (facadePush (dequeGQ Int) (Arc.clone hd i1).2 (Arc.clone hd i1).1 x) i1).1
      = some x
    ∧ (facadePop (priorityGQ Int)
        (facadePush (priorityGQ Int) (Arc.clone hq i2).2 (Arc.clone hq i2).1 y) i2).1
      = some y
    ∧ (facadePopB (dequeGQ Int)
        (facadePushB (dequeGQ Int) (Arc.clone hbd i3).2 (Arc.clone hbd i3).1 x) i3).1
      = some x
    ∧ (facadePopB (priorityGQ Int)
        (facadePushB (priorityGQ Int) (Arc.clone hbq i4).2 (Arc.clone hbq i4).1 y) i4).1
      = some y
    ∧ Arc.read (Arc.dropRef (Arc.clone hd i1).2 i1) i1 = some Deque.empty
    ∧ Arc.read (Arc.dropRef (Arc.clone hq i2).2 i2) i2 = some PriorityQueue.empty
    ∧ Arc.read (Arc.dropRef (Arc.clone hbd i3).2 i3) i3 = some ⟨Deque.empty, M1 + 1⟩
    ∧ Arc.read (Arc.dropRef (Arc.clone hbq i4).2 i4) i4 = some ⟨PriorityQueue.empty, M2 + 1⟩
    ∧ (Arc.dropRef gd j1).cells[j1]? = some none
    ∧ (Arc.dropRef gq2 j2).cells[j2]? = some none
    ∧ (Arc.dropRef gbd j3).cells[j3]? = some none
    ∧ (Arc.dropRef gbq j4).cells[j4]? = some none := by
  refine ⟨arc_clone_fst hd i1, arc_clone_fst hq i2, arc_clone_fst hbd i3,
    arc_clone_fst hbq i4,
    arc_clone_count hd i1 Deque.empty (k1 + 1) h1,
    arc_clone_count hq i2 PriorityQueue.empty (k2 + 1) h2,
    arc_clone_count hbd i3 ⟨Deque.empty, M1 + 1⟩ (k3 + 1) h3,
    arc_clone_count hbq i4 ⟨PriorityQueue.empty, M2 + 1⟩ (k4 + 1) h4,
    ?_, ?_, ?_, ?_, ?_, ?_, ?_, ?_,
    arc_drop_last gd j1 cd g1, arc_drop_last gq2 j2 cq g2,
    arc_drop_last gbd j3 cbd g3, arc_drop_last gbq j4 cbq g4⟩
  · exact facade_clone_visible (dequeGQ Int) hd i1 Deque.empty (k1 + 1) x x
      Deque.empty h1 rfl
  · exact facade_clone_visible (priorityGQ Int) hq i2 PriorityQueue.empty (k2 + 1) y y
      PriorityQueue.empty h2 rfl
  · exact facadeB_clone_visible (dequeGQ Int) hbd i3 ⟨Deque.empty, M1 + 1⟩ (k3 + 1) x x
      ⟨⟨[x]⟩, M1 + 1⟩ ⟨⟨[]⟩, M1 + 1⟩ h3 rfl rfl
  · exact facadeB_clone_visible (priorityGQ Int) hbq i4 ⟨PriorityQueue.empty, M2 + 1⟩
      (k4 + 1) y y ⟨⟨[y], List.sorted_singleton y⟩, M2 + 1⟩
      ⟨⟨[], List.sorted_nil⟩, M2 + 1⟩ h4 rfl rfl
  · exact arc_drop_live (Arc.clone hd i1).2 i1 Deque.empty k1
      (arc_clone_count hd i1 Deque.empty (k1 + 1) h1)
  · exact arc_drop_live (Arc.clone hq i2).2 i2 PriorityQueue.empty k2
      (arc_clone_count hq i2 PriorityQueue.empty (k2 + 1) h2)
  · exact arc_drop_live (Arc.clone hbd i3).2 i3 ⟨Deque.empty, M1 + 1⟩ k3
      (arc_clone_count hbd i3 ⟨Deque.empty, M1 + 1⟩ (k3 + 1) h3)
  · exact arc_drop_live (Arc.clone hbq i4).2 i4 ⟨PriorityQueue.empty, M2 + 1⟩ k4
      (arc_clone_count hbq i4 ⟨PriorityQueue.empty, M2 + 1⟩ (k4 + 1) h4)

/-- C7 witness: four single-cell heaps, one per facade cell type, each cell at
refcount 1; cloning, pushing 7 or 9 through the clone, popping through the
original, one drop leaving the cell live, and a last drop destroying it. -/
theorem c7_clone_sharing_witness :
    (Arc.clone (⟨[some (Deque.empty, 1)]⟩ : ArcHeap (Deque Int)) 0).1 = 0
    ∧ (Arc.clone (⟨[some (PriorityQueue.empty, 1)]⟩ : ArcHeap (PriorityQueue Int)) 0).1 = 0
    ∧ (Arc.clone (⟨[some (⟨Deque.empty, 1⟩, 1)]⟩
        : ArcHeap (BoundedQueueBox (Deque Int))) 0).1 = 0
    ∧ (Arc.clone (⟨[some (⟨PriorityQueue.empty, 1⟩, 1)]⟩
        : ArcHeap (BoundedQueueBox (PriorityQueue Int))) 0).1 = 0
    ∧ (Arc.clone (⟨[some (Deque.empty, 1)]⟩ : ArcHeap (Deque Int)) 0).2.cells[0]?
      = some (some (Deque.empty, 2))
    ∧ (Arc.clone (⟨[some (PriorityQueue.empty, 1)]⟩
        : ArcHeap (PriorityQueue Int)) 0).2.cells[0]?
      = some (some (PriorityQueue.empty, 2))
    ∧ (Arc.clone (⟨[some (⟨Deque.empty, 1⟩, 1)]⟩
        : ArcHeap (BoundedQueueBox (Deque Int))) 0).2.cells[0]?
      = some (some (⟨Deque.empty, 1⟩, 2))
    ∧ (Arc.clone (⟨[some (⟨PriorityQueue.empty, 1⟩, 1)]⟩
        : ArcHeap (BoundedQueueBox (PriorityQueue Int))) 0).2.cells[0]?
      = some (some (⟨PriorityQueue.empty, 1⟩, 2))
    ∧ (facadePop (dequeGQ Int)
        (facadePush (dequeGQ Int)
          (Arc.clone (⟨[some (Deque.empty, 1)]⟩ : ArcHeap (Deque Int)) 0).2
          (Arc.clone (⟨[some (Deque.empty, 1)]⟩ : ArcHeap (Deque Int)) 0).1 7) 0).1
      = some 7
    ∧ (facadePop (priorityGQ Int)
        (facadePush (priorityGQ Int)
          (Arc.clone (⟨[some (PriorityQueue.empty, 1)]⟩
            : ArcHeap (PriorityQueue Int)) 0).2
          (Arc.clone (⟨[some (PriorityQueue.empty, 1)]⟩
            : ArcHeap (PriorityQueue Int)) 0).1 9) 0).1
      = some 9
    ∧ (facadePopB (dequeGQ Int)
        (facadePushB (dequeGQ Int)
          (Arc.clone (⟨[some (⟨Deque.empty, 1⟩, 1)]⟩
            : ArcHeap (BoundedQueueBox (Deque Int))) 0).2
          (Arc.clone (⟨[some (⟨Deque.empty, 1⟩, 1)]⟩
            : ArcHeap (BoundedQueueBox (Deque Int))) 0).1 7) 0).1
      = some 7
    ∧ (facadePopB (priorityGQ Int)
        (facadePushB (priorityGQ Int)
          (Arc.clone (⟨[some (⟨PriorityQueue.empty, 1⟩, 1)]⟩
            : ArcHeap (BoundedQueueBox (PriorityQueue Int))) 0).2
          (Arc.clone (⟨[some (⟨PriorityQueue.empty, 1⟩, 1)]⟩
            : ArcHeap (BoundedQueueBox (PriorityQueue Int))) 0).1 9) 0).1
      = some 9
    ∧ Arc.read (Arc.dropRef
        (Arc.clone (⟨[some (Deque.empty, 1)]⟩ : ArcHeap (Deque Int)) 0).2 0) 0
      = some Deque.empty
    ∧ Arc.read (Arc.dropRef
        (Arc.clone (⟨[some (PriorityQueue.empty, 1)]⟩
          : ArcHeap (PriorityQueue Int)) 0).2 0) 0
      = some PriorityQueue.empty
    ∧ Arc.read (Arc.dropRef
        (Arc.clone (⟨[some (⟨Deque.empty, 1⟩, 1)]⟩
          : ArcHeap (BoundedQueueBox (Deque Int))) 0).2 0) 0
      = some ⟨Deque.empty, 1⟩
    ∧ Arc.read (Arc.dropRef
        (Arc.clone (⟨[some (⟨PriorityQueue.empty, 1⟩, 1)]⟩
          : ArcHeap (BoundedQueueBox (PriorityQueue Int))) 0).2 0) 0
      = some ⟨PriorityQueue.empty, 1⟩
    ∧ (Arc.dropRef (⟨[some (Deque.empty, 1)]⟩ : ArcHeap (Deque Int)) 0).cells[0]?
      = some none
    ∧ (Arc.dropRef (⟨[some (PriorityQueue.empty, 1)]⟩
        : ArcHeap (PriorityQueue Int)) 0).cells[0]? = some none
    ∧ (Arc.dropRef (⟨[some (⟨Deque.empty, 1⟩, 1)]⟩
        : ArcHeap (BoundedQueueBox (Deque Int))) 0).cells[0]? = some none
    ∧ (Arc.dropRef (⟨[some (⟨PriorityQueue.empty, 1⟩, 1)]⟩
        : ArcHeap (BoundedQueueBox (PriorityQueue Int))) 0).cells[0]? = some none :=
  c7_clone_sharing
    ⟨[some (Deque.empty, 1)]⟩ ⟨[some (PriorityQueue.empty, 1)]⟩
    ⟨[some (⟨Deque.empty, 1⟩, 1)]⟩ ⟨[some (⟨PriorityQueue.empty, 1⟩, 1)]⟩
    ⟨[some (Deque.empty, 1)]⟩ ⟨[some (PriorityQueue.empty, 1)]⟩
    ⟨[some (⟨Deque.empty, 1⟩, 1)]⟩ ⟨[some (⟨PriorityQueue.empty, 1⟩, 1)]⟩
    0 0 0 0 0 0 0 0 0 0 0 0 7 9 0 0
    Deque.empty PriorityQueue.empty ⟨Deque.empty, 1⟩ ⟨PriorityQueue.empty, 1⟩
    rfl rfl rfl rfl rfl rfl rfl rfl

/-! The step sequence of the unbounded push -/

/-- Events observable at one unbounded monitor cell: the mutex operations, the
container mutations performed under the lock, and the condition-variable
operations. -/
inductive MEvent (α : Type) where
  | lock
  | unlock
  | containerPush (x : α)
  | containerPop (x : α)
  | waitNotEmpty
  | signalNotEmpty
deriving DecidableEq

/-- The event trace of QueuePtr.push, read off its body in
src/core/concurrent.rs: mutex.lock, generic_push, mutex.unlock,
not_empty.signal. -/
def QueuePtr.pushTrace {α : Type} (x : α) : List (MEvent α) :=
  [MEvent.lock, MEvent.containerPush x, MEvent.unlock, MEvent.signalNotEmpty]

/-- The event trace of QueuePtr.pop: lock via the guard, a number of waits
while the queue was empty, generic_pop under the lock, unlock at guard drop. -/
def QueuePtr.popTrace {α : Type} (waits : Nat) (x : α) : List (MEvent α) :=
  [MEvent.lock] ++ List.replicate waits MEvent.waitNotEmpty
    ++ [MEvent.containerPop x, MEvent.unlock]

/-- A completed operation on one unbounded monitor cell. -/
inductive MOp (α : Type) where
  | push (x : α)
  | pop (waits : Nat) (x : α)
deriving DecidableEq

def MOp.trace {α : Type} : MOp α → List (MEvent α)
  | .push x => QueuePtr.pushTrace x
  | .pop w x => QueuePtr.popTrace w x

/-- The flattened event trace of a serialized run of completed operations. -/
def schedTrace {α : Type} (sched : List (MOp α)) : List (MEvent α) :=
  (sched.map MOp.trace).flatten

/-- The effect of one event on the container length: only the container
mutations change it. -/
def MEvent.lenEffect {α : Type} : MEvent α → Nat → Nat
  | .containerPush _, n => n + 1
  | .containerPop _, n => n - 1
  | _, n => n

/-- The container length after a prefix of the event trace. -/
def lenAfter {α : Type} (evs : List (MEvent α)) : Nat :=
  evs.foldl (fun n e => MEvent.lenEffect e n) 0

theorem pushTrace_signal_after (α : Type) (x y : α) (l1 l2 : List (MEvent α))
    (h : QueuePtr.pushTrace y = l1 ++ MEvent.containerPush x :: l2) :
    MEvent.signalNotEmpty ∈ l2 := by
  match l1 with
  | [] => simp [QueuePtr.pushTrace] at h
  | [a] =>
    rw [QueuePtr.pushTrace] at h
    simp only [List.cons_append, List.nil_append, List.cons.injEq] at h
    obtain ⟨-, -, h3⟩ := h
    rw [← h3]
    simp
  | [a, b] => simp [QueuePtr.pushTrace] at h
  | [a, b, c] => simp [QueuePtr.pushTrace] at h
  | a :: b :: c :: d :: rest => simp [QueuePtr.pushTrace] at h

theorem popTrace_no_push (α : Type) (x y : α) (w : Nat) :
    MEvent.containerPush x ∉ QueuePtr.popTrace w y := by
  intro hmem
  simp [QueuePtr.popTrace, List.mem_replicate] at hmem

theorem schedTrace_signal_follows (α : Type) (sched : List (MOp α)) (x : α)
    (l1 l2 : List (MEvent α))
    (h : schedTrace sched = l1 ++ MEvent.containerPush x :: l2) :
    MEvent.signalNotEmpty ∈ l2 := by
  induction sched generalizing l1 l2 with
  | nil =>
    exfalso
    rw [show schedTrace ([] : List (MOp α)) = [] from rfl] at h
    exact absurd h.symm (by simp)
  | cons op rest ih =>
    have hsplit : MOp.trace op ++ schedTrace rest = l1 ++ MEvent.containerPush x :: l2 := h
    rcases List.append_eq_append_iff.mp hsplit with ⟨m, hm1, hm2⟩ | ⟨m, hm1, hm2⟩
    · exact ih m l2 hm2
    · match m, hm2 with
      | [], hm2 =>
        have hrest : schedTrace rest = [] ++ MEvent.containerPush x :: l2 := by
          simpa using hm2.symm
        exact ih [] l2 hrest
      | e :: m2, hm2 =>
        have he : MEvent.containerPush x = e ∧ l2 = m2 ++ schedTrace rest := by
          simpa [List.cons_append, List.cons.injEq] using hm2
        have hop : MOp.trace op = l1 ++ MEvent.containerPush x :: m2 := by
          rw [hm1, ← he.1]
        match op with
        | .push y =>
          have hmem : MEvent.signalNotEmpty ∈ m2 :=
            pushTrace_signal_after α x y l1 m2 hop
          rw [he.2]
          exact List.mem_append_left _ hmem
        | .pop w y =>
          exfalso
          have hmem : MEvent.containerPush x ∈ QueuePtr.popTrace w y := by
            have : MEvent.containerPush x ∈ MOp.trace (MOp.pop w y) := by
              rw [hop]
              simp
            exact this
          exact popTrace_no_push α x y w hmem

/-- C8: every execution of the unbounded push performs exactly the step
sequence lock, container push, unlock, signal not_empty; and in any serialized
run of completed operations, an event that takes the container length from 0
to nonzero is a container push inside such a sequence, hence is followed by a
not_empty signal later in the trace. -/
theorem c8_push_signals (x : Int) (sched : List (MOp Int)) (e : MEvent Int)
    (l1 l2 : List (MEvent Int))
    (h : schedTrace sched = l1 ++ e :: l2)
    (h0 : lenAfter l1 = 0) (h1 : lenAfter (l1 ++ [e]) ≠ 0) :
    QueuePtr.pushTrace x
      = [MEvent.lock, MEvent.containerPush x, MEvent.unlock, MEvent.signalNotEmpty]
    ∧ MEvent.signalNotEmpty ∈ l2 := by
  refine ⟨rfl, ?_⟩
  have hlen : lenAfter (l1 ++ [e]) = MEvent.lenEffect e (lenAfter l1) := by
    simp [lenAfter, List.foldl_append]
  match e with
  | .lock => exact absurd (hlen.trans (by rw [h0]; rfl)) h1
  | .unlock => exact absurd (hlen.trans (by rw [h0]; rfl)) h1
  | .waitNotEmpty => exact absurd (hlen.trans (by rw [h0]; rfl)) h1
  | .signalNotEmpty => exact absurd (hlen.trans (by rw [h0]; rfl)) h1
  | .containerPop y => exact absurd (hlen.trans (by rw [h0]; rfl)) h1
  | .containerPush y => exact schedTrace_signal_follows Int sched y l1 l2 h

/-- C8 witness: the run consisting of one push of 5, at the container-push
event of its trace. -/
theorem c8_push_signals_witness :
    QueuePtr.pushTrace (5 : Int)
      = [MEvent.lock, MEvent.containerPush 5, MEvent.unlock, MEvent.signalNotEmpty]
    ∧ MEvent.signalNotEmpty ∈ ([MEvent.unlock, MEvent.signalNotEmpty] : List (MEvent Int)) :=
  c8_push_signals 5 [MOp.push 5] (MEvent.containerPush 5) [MEvent.lock]
    [MEvent.unlock, MEvent.signalNotEmpty] (by decide) (by decide) (by decide)

end RustCore
